import Mathlib

/-!
# Paicode: global-setting cache, privilege-gated dispatch and the client's Fund call

A shallow embedding of

* `src/chaincode/chaincode.go` : `paiStatus`, `PaiChaincode`, `updateCache`,
  `saveGlobalStatus`, `Invoke`, `privilege_Def`;
* `src/chaincode/transaction/definations.go` : `FuncPrefix` and the four group
  prefixes, `UserFund`;
* `src/client/fundrpc.go` : `rpcManager`, `fundNounceMaxLen`, `Fund`.

Conventions.

* A Go `string` or `[]byte` is a list of bytes; `len` is the list length and
  `s[:n]` is `List.take n` guarded by the run-time bounds check.
* A Go `error` is `Option GoError`, `none` being `nil`.
* Each call is modelled as one run from the state it finds: the run records
  how the call ends, the receiver after it, and the ordered list of calls
  made to collaborators (the trace).
* `sync.RWMutex` is part of the state. A call that reaches `RLock` or `Lock`
  when the mutex cannot be taken waits; when what it waits for can never be
  released, the call never returns, and the run ends in `CallEnd.blocked`.
  `updateCache` asks for the write lock while it holds the read lock it took
  on entry, so its load path is such a wait.
* Collaborators whose code is outside the given sources (the ledger stub,
  protobuf, the security helper, the per-group handler, the address helper,
  transaction signing, the rpc builder) are parameters.
-/

namespace Paicode

/-! ## Go values -/

/-- A Go `string` (and `[]byte`): a finite sequence of bytes. -/
abbrev GoString := List UInt8

/-- The bytes of a string literal of the source (UTF-8, as Go stores it). -/
def str (s : String) : GoString := s.toList.flatMap String.utf8EncodeChar

/-- The two causes a `*strconv.NumError` can carry. -/
inductive NumErrKind
  | invalidDigits
  | outOfRange
deriving DecidableEq, Repr

/-- Go `error` values that occur in the embedded code: `errors.New(msg)`
identified by its message, the `*strconv.NumError` of `strconv.Atoi`
(its `Num` and `Err` fields), and errors made by collaborators. -/
inductive GoError
  | errorsNew (msg : GoString)
  | NumError (Num : GoString) (Err : NumErrKind)
  | external (descr : GoString)
deriving DecidableEq, Repr


/-! ## Chaincode: data model (`chaincode.go`, `definations.go`) -/

/-- Go `sync.RWMutex` as a call sees it: the number of read locks held, whether
the write lock is held, and whether a `Lock` call is waiting for the readers
to leave (which also holds off new readers). -/
structure RWMutex where
  readers : Nat
  writer : Bool
  waiting : Bool
deriving DecidableEq, Repr

/-- The zero value of `sync.RWMutex`: unlocked. -/
def RWMutex.unlocked : RWMutex := ⟨0, false, false⟩

/-- The call `RLock()`: the mutex with one more reader, or `none` when the call
has to wait because the write lock is held or a writer is waiting. -/
def RWMutex.RLock (m : RWMutex) : Option RWMutex :=
  if m.writer || m.waiting then none else some { m with readers := m.readers + 1 }

/-- The call `Lock()`: the mutex write-locked, or `none` when the call has to
wait because the mutex is locked for reading or writing. -/
def RWMutex.Lock (m : RWMutex) : Option RWMutex :=
  if m.writer || m.waiting || m.readers != 0 then none else some { m with writer := true }

/-- The call `RUnlock()`: the mutex with one reader fewer, or `none` for the
run-time fatal error "sync: RUnlock of unlocked RWMutex". -/
def RWMutex.RUnlock (m : RWMutex) : Option RWMutex :=
  if m.readers = 0 then none else some { m with readers := m.readers - 1 }

/-- Go `paiStatus` of `chaincode.go`; `int64` fields are only copied, never computed with. -/
structure paiStatus where
  totalPai : Int
  frozenPai : Int
deriving DecidableEq, Repr

/-- Go `PaiChaincode` of `chaincode.go`. -/
structure PaiChaincode where
  globalLock : RWMutex
  cacheOK : Bool
  paistat : paiStatus
deriving DecidableEq, Repr

/-- Go `new(PaiChaincode)`, the instance `main` starts: every field has its zero value. -/
def newPaiChaincode : PaiChaincode := ⟨RWMutex.unlocked, false, ⟨0, 0⟩⟩

/-- Constant `global_setting_entry` of `chaincode.go`. -/
def global_setting_entry : GoString := str "global_setting"

/-- Constant `FuncPrefix` of `definations.go`. -/
def FuncPrefix : Nat := 4

/-- Constant `Admin_funcs` of `definations.go`. -/
def Admin_funcs : GoString := str "ADMN"

/-- Constant `Manage_funcs` of `definations.go`. -/
def Manage_funcs : GoString := str "MANG"

/-- Constant `User_funcs` of `definations.go`. -/
def User_funcs : GoString := str "USER"

/-- Constant `Query_funcs` of `definations.go`. -/
def Query_funcs : GoString := str "QURY"

/-- Variable `UserFund` of `definations.go`. -/
def UserFund : GoString := User_funcs ++ str "_FUND"

/-- Modelled from the spec: the record `persistpb.DeploySetting`, declared in
the protos package outside the given sources. The spec names its two supply
fields; every other field (the security-bootstrap part) is kept as `rest`. -/
structure DeploySetting (X : Type) where
  TotalPais : Int
  UnassignedPais : Int
  rest : X

/-- The protobuf collaborator: `proto.Unmarshal` into a fresh
`DeploySetting` and `proto.Marshal`, both fallible. -/
structure Proto (X : Type) where
  Unmarshal : GoString → Except GoError (DeploySetting X)
  Marshal : DeploySetting X → Except GoError GoString

/-- Modelled from the spec: the host key/value store behind
`shim.ChaincodeStubInterface`, as one call sees it. `ledger` is the stored
content (`none` is an absent key, read back as `nil`), `getFault` and
`putFault` are the failures the host answers with. -/
structure ChaincodeStub where
  ledger : GoString → Option GoString
  getFault : GoString → Option GoError
  putFault : GoString → GoString → Option GoError

/-- The call `stub.GetState(key)`: the host's error, or the stored bytes (`none` for `nil`). -/
def ChaincodeStub.GetState (stub : ChaincodeStub) (key : GoString) :
    Except GoError (Option GoString) :=
  match stub.getFault key with
  | some err => .error err
  | none => .ok (stub.ledger key)

/-- The call `stub.PutState(key, value)`: the returned error and the store afterwards. -/
def ChaincodeStub.PutState (stub : ChaincodeStub) (key value : GoString) :
    Option GoError × ChaincodeStub :=
  match stub.putFault key value with
  | some err => (some err, stub)
  | none => (none, { stub with ledger := fun k => if k = key then some value else stub.ledger k })

/-- Calls the chaincode makes to its collaborators, in the order made. -/
inductive Event (X : Type)
  | GetState (key : GoString)
  | PutState (key value : GoString)
  | InitSecHelper (setting : DeploySetting X)
  | ActiveAudit (msg : GoString)
  | handleUserFuncs (function : GoString) (args : List GoString)

/-- Whether an event is a `stub.GetState` read. -/
def Event.isGetState {X : Type} : Event X → Bool
  | .GetState _ => true
  | _ => false

/-- Whether an event is a `sec.Helper.ActiveAudit` call. -/
def Event.isActiveAudit {X : Type} : Event X → Bool
  | .ActiveAudit _ => true
  | _ => false

/-- Whether an event is a call of a group handler. -/
def Event.isHandler {X : Type} : Event X → Bool
  | .handleUserFuncs _ _ => true
  | _ => false

/-- Go `paiStatus.init`: copy the two supply fields out of the record. -/
def paiStatus.init {X : Type} (s : paiStatus) (setting : DeploySetting X) : paiStatus :=
  { s with totalPai := setting.TotalPais, frozenPai := setting.UnassignedPais }

/-- Go `paiStatus.set`: copy the two supply fields into the record. -/
def paiStatus.set {X : Type} (s : paiStatus) (setting : DeploySetting X) : DeploySetting X :=
  { setting with TotalPais := s.totalPai, UnassignedPais := s.frozenPai }

/-- How a call ends: it returns its `error`; or it waits on `globalLock` for a
release that cannot come and never returns; or a deferred `RUnlock` finds no
read lock held; or the slice expression `function[:tx.FuncPrefix]` fails its
bounds check. -/
inductive CallEnd
  | returned (err : Option GoError)
  | blocked
  | unlockOfUnlocked
  | sliceOutOfRange
deriving DecidableEq, Repr

/-- One run of `updateCache` or `saveGlobalStatus`: how the call ends, the
receiver and the store after it, and the calls made. -/
structure CacheRun (X : Type) where
  out : CallEnd
  t : PaiChaincode
  stub : ChaincodeStub
  trace : List (Event X)

/-- A deferred `t.globalLock.RUnlock()`, run once the body has returned. -/
def CacheRun.deferRUnlock {X : Type} (r : CacheRun X) : CacheRun X :=
  match r.out with
  | .returned _ =>
    match r.t.globalLock.RUnlock with
    | some m => { r with t := { r.t with globalLock := m } }
    | none => { r with out := .unlockOfUnlocked }
  | _ => r

/-- Lines 61 to 81 of `chaincode.go`: the load that `updateCache` runs once it
has the write lock. -/
def updateCache.load {X : Type} (pb : Proto X) (t : PaiChaincode) (stub : ChaincodeStub) :
    CacheRun X :=
  match stub.GetState global_setting_entry with
  | .error err => ⟨.returned (some err), t, stub, [.GetState global_setting_entry]⟩
  | .ok none =>
    ⟨.returned (some (.errorsNew (str "FATAL: No global setting found"))), t, stub,
      [.GetState global_setting_entry]⟩
  | .ok (some rawset) =>
    match pb.Unmarshal rawset with
    | .error err => ⟨.returned (some err), t, stub, [.GetState global_setting_entry]⟩
    | .ok setting =>
      ⟨.returned none, { t with paistat := t.paistat.init setting, cacheOK := true }, stub,
        [.GetState global_setting_entry, .InitSecHelper setting]⟩

/-- Go `PaiChaincode.updateCache`: `RLock` and its deferred `RUnlock` (lines 54,
55); when the cache is not loaded, `Lock` and a second deferred `RUnlock`
(lines 58, 59) around the load. `Lock` is asked for while the read lock of
line 54 is held; a call that waits there leaves its read lock and its pending
write request on the mutex. -/
def updateCache {X : Type} (pb : Proto X) (t : PaiChaincode) (stub : ChaincodeStub) :
    CacheRun X :=
  match t.globalLock.RLock with
  | none => ⟨.blocked, t, stub, []⟩
  | some m1 =>
    if !t.cacheOK then
      match m1.Lock with
      | none => ⟨.blocked, { t with globalLock := { m1 with waiting := true } }, stub, []⟩
      | some m2 =>
        ((updateCache.load pb { t with globalLock := m2 } stub).deferRUnlock).deferRUnlock
    else
      (⟨.returned none, { t with globalLock := m1 }, stub, []⟩ : CacheRun X).deferRUnlock

/-- Lines 91 to 122 of `chaincode.go`: the body of `saveGlobalStatus` under the read lock. -/
def saveGlobalStatus.body {X : Type} (pb : Proto X) (t : PaiChaincode) (stub : ChaincodeStub) :
    CacheRun X :=
  if !t.cacheOK then
    ⟨.returned (some (.errorsNew (str "FATAL: Invalid cache"))), t, stub, []⟩
  else
    match stub.GetState global_setting_entry with
    | .error err => ⟨.returned (some err), t, stub, [.GetState global_setting_entry]⟩
    | .ok none =>
      ⟨.returned (some (.errorsNew (str "FATAL: No global setting found"))),
        { t with cacheOK := false }, stub, [.GetState global_setting_entry]⟩
    | .ok (some rawset) =>
      match pb.Unmarshal rawset with
      | .error err => ⟨.returned (some err), t, stub, [.GetState global_setting_entry]⟩
      | .ok setting =>
        match pb.Marshal (t.paistat.set setting) with
        | .error err => ⟨.returned (some err), t, stub, [.GetState global_setting_entry]⟩
        | .ok rawset2 =>
          ⟨.returned (stub.PutState global_setting_entry rawset2).1, t,
            (stub.PutState global_setting_entry rawset2).2,
            [.GetState global_setting_entry, .PutState global_setting_entry rawset2]⟩

/-- Go `PaiChaincode.saveGlobalStatus`: `RLock`, the body, the deferred `RUnlock`. -/
def saveGlobalStatus {X : Type} (pb : Proto X) (t : PaiChaincode) (stub : ChaincodeStub) :
    CacheRun X :=
  match t.globalLock.RLock with
  | none => ⟨.blocked, t, stub, []⟩
  | some m1 => (saveGlobalStatus.body pb { t with globalLock := m1 } stub).deferRUnlock

/-! ## Chaincode: dispatch (`chaincode.go`, `Invoke`) -/

/-- Package `sec` as `Invoke` uses it: the three privilege constants and the
two pure queries of `sec.Helper`. `GetPrivilege` returns the caller's role
privilege and region; `ActiveAudit` is an effect and appears in the trace. -/
structure SecHelper (Rg : Type) where
  AdminPrivilege : GoString
  ManagerPrivilege : GoString
  DelegatePrivilege : GoString
  GetPrivilege : ChaincodeStub → GoString × Rg
  VerifyPrivilege : GoString → GoString → Bool

/-- What a call of `t.handleUserFuncs` leaves behind: its error, the receiver and the store. -/
structure HandlerRun where
  err : Option GoError
  t : PaiChaincode
  stub : ChaincodeStub

/-- The method `handleUserFuncs(stub, function, region, args)`, defined outside the given sources. -/
abbrev UserHandler (Rg : Type) :=
  PaiChaincode → ChaincodeStub → GoString → Rg → List GoString → HandlerRun

/-- Go map `privilege_Def` of `chaincode.go` with Go's lookup: a key that
is not in the map yields the empty string. -/
def privilege_Def {Rg : Type} (sec : SecHelper Rg) (key : GoString) : GoString :=
  if key = Admin_funcs then sec.AdminPrivilege
  else if key = Manage_funcs then sec.ManagerPrivilege
  else if key = User_funcs then sec.DelegatePrivilege
  else []

/-- The audit text `fmt.Sprintf("Call function <%s> without require priviledge", function)`. -/
def auditMsg (function : GoString) : GoString :=
  str "Call function <" ++ function ++ str "> without require priviledge"


/-- One run of `Invoke`. -/
structure InvokeRun (X : Type) where
  out : CallEnd
  t : PaiChaincode
  stub : ChaincodeStub
  trace : List (Event X)

/-- Lines 136 to 157 of `chaincode.go`: what `Invoke` does once `updateCache`
has returned nil, from the state `c` that call left. -/
def Invoke.dispatch {X Rg : Type} (sec : SecHelper Rg) (handler : UserHandler Rg)
    (c : CacheRun X) (stub : ChaincodeStub) (function : GoString) (args : List GoString) :
    InvokeRun X :=
  if function.length < FuncPrefix then
    ⟨.sliceOutOfRange, c.t, c.stub, c.trace⟩
  else if !sec.VerifyPrivilege (sec.GetPrivilege stub).1
      (privilege_Def sec (function.take FuncPrefix)) then
    ⟨.returned (some (.errorsNew (str "No priviledge"))), c.t, c.stub,
      c.trace ++ [.ActiveAudit (auditMsg function)]⟩
  else if function.take FuncPrefix = Admin_funcs then
    ⟨.returned none, c.t, c.stub, c.trace⟩
  else if function.take FuncPrefix = Manage_funcs then
    ⟨.returned none, c.t, c.stub, c.trace⟩
  else if function.take FuncPrefix = User_funcs then
    ⟨.returned (handler c.t c.stub function (sec.GetPrivilege stub).2 args).err,
      (handler c.t c.stub function (sec.GetPrivilege stub).2 args).t,
      (handler c.t c.stub function (sec.GetPrivilege stub).2 args).stub,
      c.trace ++ [.handleUserFuncs function args]⟩
  else
    ⟨.returned (some (.errorsNew (str "Function group not exist or invokable"))),
      c.t, c.stub, c.trace⟩

/-- Go `PaiChaincode.Invoke`: `updateCache` first; its error is returned as it
is, and a call of `updateCache` that does not return leaves `Invoke` not
returning either. -/
def Invoke {X Rg : Type} (pb : Proto X) (sec : SecHelper Rg) (handler : UserHandler Rg)
    (t : PaiChaincode) (stub : ChaincodeStub) (function : GoString) (args : List GoString) :
    InvokeRun X :=
  match (updateCache pb t stub).out with
  | .returned none =>
    Invoke.dispatch sec handler (updateCache pb t stub) stub function args
  | out =>
    ⟨out, (updateCache pb t stub).t, (updateCache pb t stub).stub,
      (updateCache pb t stub).trace⟩

/-- Calls of `updateCache` issued one after the other on one instance against
the same store, each finding the receiver as the one before left it: how each
call ends, in call order, the receiver after the last one and the
concatenated trace. -/
def updateCacheTimes {X : Type} (pb : Proto X) (stub : ChaincodeStub) :
    Nat → PaiChaincode → List CallEnd × PaiChaincode × List (Event X)
  | 0, t => ([], t, [])
  | n + 1, t =>
    ((updateCache pb t stub).out :: (updateCacheTimes pb stub n (updateCache pb t stub).t).1,
      (updateCacheTimes pb stub n (updateCache pb t stub).t).2.1,
      (updateCache pb t stub).trace ++ (updateCacheTimes pb stub n (updateCache pb t stub).t).2.2)

/-- The two cache operations of a `PaiChaincode` instance. -/
inductive CacheOp
  | updateCache
  | saveGlobalStatus
deriving DecidableEq, Repr

/-- One cache operation against the store the host hands to that call. -/
def CacheOp.run {X : Type} (pb : Proto X) (t : PaiChaincode) : CacheOp × ChaincodeStub → CacheRun X
  | (.updateCache, stub) => Paicode.updateCache pb t stub
  | (.saveGlobalStatus, stub) => Paicode.saveGlobalStatus pb t stub

/-- The values of `cacheOK` seen after each call of a sequence of cache
operations on one instance, every call with its own view of the store. -/
def cacheOKHistory {X : Type} (pb : Proto X) :
    PaiChaincode → List (CacheOp × ChaincodeStub) → List Bool
  | _, [] => []
  | t, c :: cs => (CacheOp.run pb t c).t.cacheOK :: cacheOKHistory pb (CacheOp.run pb t c).t cs

/-! ## Client: `Fund` (`fundrpc.go`) -/

/-- Constant `fundNounceMaxLen` of `fundrpc.go`. -/
def fundNounceMaxLen : Nat := 256

/-- Width of Go's `int` and `uint` (64-bit platforms). -/
def intSize : Nat := 64

/-- Go conversion `uint(i)` of an `int`: reduction modulo `2 ^ intSize`. -/
def uint (i : Int) : Nat := (i % 2 ^ intSize).toNat

/-- ASCII decimal digit test used by `strconv`. -/
def isDigit (c : UInt8) : Bool := decide (48 ≤ c.toNat ∧ c.toNat ≤ 57)


/-- The largest `uint64`. -/
def maxUint64 : Nat := 2 ^ 64 - 1

/-- The digit loop of Go's `strconv.ParseUint(s, 10, 0)`, left to right from
the value `n` read so far: a byte that is not a decimal digit is a syntax
error, a value that leaves `uint64` is a range error, whichever comes first. -/
def parseUintDigits : List UInt8 → Nat → Except NumErrKind Nat
  | [], n => .ok n
  | c :: cs, n =>
    if !isDigit c then .error .invalidDigits
    else if maxUint64 / 10 + 1 ≤ n then .error .outOfRange
    else if maxUint64 < n * 10 + (c.toNat - 48) then .error .outOfRange
    else parseUintDigits cs (n * 10 + (c.toNat - 48))

/-- Go standard library `strconv.Atoi(s)`, that is `ParseInt(s, 10, 0)`
narrowed to `int`: an optional `+` or `-`, then one or more decimal digits read
by the `ParseUint` loop; a syntax error is returned as it is, and a value
outside the `int` range (the loop's own range error included) is a range
error. The result is Go's pair `(int, error)`. -/
def Atoi (s : GoString) : Int × Option GoError :=
  if (if s.head? = some 43 ∨ s.head? = some 45 then s.tail else s) = [] then
    (0, some (.NumError s .invalidDigits))
  else
    match parseUintDigits (if s.head? = some 43 ∨ s.head? = some 45 then s.tail else s) 0 with
    | .error .invalidDigits => (0, some (.NumError s .invalidDigits))
    | .error .outOfRange =>
      if s.head? = some 45 then (-(2 ^ (intSize - 1)), some (.NumError s .outOfRange))
      else (2 ^ (intSize - 1) - 1, some (.NumError s .outOfRange))
    | .ok un =>
      if s.head? = some 45 then
        if 2 ^ (intSize - 1) < un then (-(2 ^ (intSize - 1)), some (.NumError s .outOfRange))
        else (-(un : Int), none)
      else if 2 ^ (intSize - 1) ≤ un then
        (2 ^ (intSize - 1) - 1, some (.NumError s .outOfRange))
      else ((un : Int), none)

/-- Modelled from the spec: `tx.FundTxData`, declared outside the given
sources and built positionally in `Fund`; the spec names its fields
recipient and amount (a Go `uint`). -/
structure FundTxData where
  recipient : GoString
  amount : Nat
deriving DecidableEq, Repr

/-- Modelled from the spec: `tx.FundTx`, declared outside the given sources:
the embedded `FundTxData`, `Invoked`, and the byte slice `Nounce` (`none` is `nil`). -/
structure FundTx where
  data : FundTxData
  Invoked : Bool
  Nounce : Option GoString
deriving DecidableEq, Repr

/-- Go `wallet.Privkey` as `Fund` uses it: the key `K` behind the pointer. -/
structure Privkey (Key : Type) where
  K : Key

/-- Go `peerex.RpcBuilder` as the sources use it. -/
structure RpcBuilder where
  Function : GoString
  ChaincodeName : GoString
deriving DecidableEq, Repr

/-- Go `rpcManager` of `fundrpc.go`; both fields are pointers, `none` is `nil`. -/
structure rpcManager (Key : Type) where
  PrivKey : Option (Privkey Key)
  Rpcbuilder : Option RpcBuilder

/-- Collaborators of `Fund`: `txutil.AddrHelper.VerifyUserId`,
`(*tx.FundTx).MakeTransaction` (builds and signs) and
`(*peerex.RpcBuilder).Fire` (submits), each returning Go's pair. -/
structure Collab (Key : Type) where
  VerifyUserId : GoString → Bool × Option GoError
  MakeTransaction : FundTx → Key → List GoString × Option GoError
  Fire : RpcBuilder → List GoString → GoString × Option GoError

/-- Steps of `Fund` that reach outside it, in the order taken. -/
inductive ClientEvent (Key : Type)
  | VerifyUserId (id : GoString)
  | readPrivKey
  | MakeTransaction (fund : FundTx) (key : Key)
  | Fire (builder : RpcBuilder) (rpcargs : List GoString)

/-- How a call of `Fund` ends: it returns Go's pair `(string, error)`, or a
nil pointer is dereferenced at run time. -/
inductive FundOutcome
  | returned (txid : GoString) (err : Option GoError)
  | nilDereference
deriving DecidableEq, Repr

/-- One run of `Fund`. -/
structure FundRun (Key : Type) where
  out : FundOutcome
  m : rpcManager Key
  trace : List (ClientEvent Key)

/-- The error `Fund` makes for an over-long message:
`errors.New(fmt.Sprint("message is too long, should not exceed", fundNounceMaxLen, "chars"))`;
`fmt.Sprint` puts no space next to a string operand. -/
def messageTooLong : GoError :=
  .errorsNew (str "message is too long, should not exceed" ++ str (Nat.repr fundNounceMaxLen)
    ++ str "chars")

/-- Lines 55 to 61 of `fundrpc.go`: sign the record with `m.PrivKey.K`, then fire. -/
def Fund.send {Key : Type} (co : Collab Key) (m : rpcManager Key) (id : GoString)
    (fund : FundTx) : FundRun Key :=
  match m.PrivKey with
  | none => ⟨.nilDereference, m, [.VerifyUserId id]⟩
  | some pk =>
    match (co.MakeTransaction fund pk.K).2 with
    | some err =>
      ⟨.returned [] (some err), m, [.VerifyUserId id, .readPrivKey, .MakeTransaction fund pk.K]⟩
    | none =>
      match m.Rpcbuilder with
      | none =>
        ⟨.nilDereference, m, [.VerifyUserId id, .readPrivKey, .MakeTransaction fund pk.K]⟩
      | some rb =>
        ⟨.returned
            (co.Fire { rb with Function := UserFund } (co.MakeTransaction fund pk.K).1).1
            (co.Fire { rb with Function := UserFund } (co.MakeTransaction fund pk.K).1).2,
          { m with Rpcbuilder := some { rb with Function := UserFund } },
          [.VerifyUserId id, .readPrivKey, .MakeTransaction fund pk.K,
            .Fire { rb with Function := UserFund } (co.MakeTransaction fund pk.K).1]⟩

/-- Go `rpcManager.Fund`. -/
def Fund {Key : Type} (co : Collab Key) (m : rpcManager Key) (args : List GoString) :
    FundRun Key :=
  if args.length < 2 then
    ⟨.returned [] (some (.errorsNew (str "No required arguments"))), m, []⟩
  else if !(co.VerifyUserId (args.getD 0 [])).1 then
    ⟨.returned [] (co.VerifyUserId (args.getD 0 [])).2, m, [.VerifyUserId (args.getD 0 [])]⟩
  else
    match (Atoi (args.getD 1 [])).2 with
    | some err => ⟨.returned [] (some err), m, [.VerifyUserId (args.getD 0 [])]⟩
    | none =>
      if (Atoi (args.getD 1 [])).1 < 0 then
        ⟨.returned [] (some (.errorsNew (str "Invalid amount"))), m,
          [.VerifyUserId (args.getD 0 [])]⟩
      else if args.length = 3 then
        if (args.getD 2 []).length > fundNounceMaxLen then
          ⟨.returned [] (some messageTooLong), m, [.VerifyUserId (args.getD 0 [])]⟩
        else
          Fund.send co m (args.getD 0 [])
            ⟨⟨args.getD 0 [], uint (Atoi (args.getD 1 [])).1⟩, false, some (args.getD 2 [])⟩
      else
        Fund.send co m (args.getD 0 [])
          ⟨⟨args.getD 0 [], uint (Atoi (args.getD 1 [])).1⟩, false, none⟩

/-- The records handed to `MakeTransaction` during a run. -/
def signedRecords {Key : Type} : List (ClientEvent Key) → List FundTx
  | [] => []
  | .MakeTransaction fund _ :: es => fund :: signedRecords es
  | _ :: es => signedRecords es

/-- Whether an event touches the private key, signs or submits. -/
def ClientEvent.usesKeyOrNetwork {Key : Type} : ClientEvent Key → Bool
  | .VerifyUserId _ => false
  | _ => true


/-! ## Sample collaborators for the concrete runs -/

/-- A small protobuf stand-in: a record whose two supply fields lie in
`0 .. 255` is written as those two bytes; any two bytes decode. -/
def sampleProto : Proto Unit where
  Unmarshal := fun b =>
    match b with
    | [x, y] => .ok ⟨(x.toNat : Int), (y.toNat : Int), ()⟩
    | _ => .error (.external (str "proto: bad wire format"))
  Marshal := fun s =>
    if 0 ≤ s.TotalPais ∧ s.TotalPais < 256 ∧ 0 ≤ s.UnassignedPais ∧ s.UnassignedPais < 256 then
      .ok [UInt8.ofNat s.TotalPais.toNat, UInt8.ofNat s.UnassignedPais.toNat]
    else .error (.external (str "proto: field out of range"))

/-- A store without faults that holds `value` under `global_setting` and nothing else. -/
def storeWith (value : Option GoString) : ChaincodeStub where
  ledger := fun k => if k = global_setting_entry then value else none
  getFault := fun _ => none
  putFault := fun _ _ => none

/-- A security helper in the shape the spec describes: three named levels
ordered Admin above Manager above Delegate, a caller passing when its level
is at least the required one; every caller is resolved to `role`. -/
def sampleSec (role : GoString) : SecHelper Unit where
  AdminPrivilege := str "admin"
  ManagerPrivilege := str "manager"
  DelegatePrivilege := str "delegate"
  GetPrivilege := fun _ => (role, ())
  VerifyPrivilege := fun caller required =>
    let rank : GoString → Nat := fun p =>
      if p = str "admin" then 3 else if p = str "manager" then 2
      else if p = str "delegate" then 1 else 0
    decide (rank required ≤ rank caller)

/-- A user handler that changes nothing and returns `err`. -/
def sampleHandler (err : Option GoError) : UserHandler Unit :=
  fun t stub _ _ _ => ⟨err, t, stub⟩

/-- Client collaborators for the concrete runs: the address helper accepts
exactly `validAddr`, signing and submission succeed. -/
def sampleCollab : Collab Nat where
  VerifyUserId := fun id =>
    if id = str "validAddr" then (true, none)
    else (false, some (.external (str "invalid user id")))
  MakeTransaction := fun fund _ => ([fund.data.recipient], none)
  Fire := fun _ _ => (str "tx-1", none)

/-- As `sampleCollab`, with an address helper that rejects every address
and gives no error value with its verdict. -/
def silentCollab : Collab Nat where
  VerifyUserId := fun _ => (false, none)
  MakeTransaction := fun fund _ => ([fund.data.recipient], none)
  Fire := fun _ _ => (str "tx-1", none)

/-- An `rpcManager` with a key and an rpc builder. -/
def sampleManager : rpcManager Nat := ⟨some ⟨42⟩, some ⟨[], str "paicode"⟩⟩

/-- An `rpcManager` whose `PrivKey` is `nil`. -/
def keylessManager : rpcManager Nat := ⟨none, some ⟨[], str "paicode"⟩⟩

/-- A message of `n` bytes, each the letter `a`. -/
def message (n : Nat) : GoString := List.replicate n 97

/-- A receiver whose cache is marked loaded with status `s`, the mutex free. The
state is given, not produced by a call: `updateCache` holds the only assignment
`cacheOK = true`. -/
def loadedChaincode (s : paiStatus) : PaiChaincode := ⟨RWMutex.unlocked, true, s⟩

/-! ## Facts about the mutex and the two cache calls -/

theorem RWMutex.Lock_after_RLock (m m1 : RWMutex) (h : m.RLock = some m1) :
    m1.Lock = none := by
  unfold RWMutex.RLock at h
  split at h
  · simp at h
  · simp only [Option.some.injEq] at h
    subst h
    simp [RWMutex.Lock]

theorem RWMutex.RUnlock_after_RLock (m m1 : RWMutex) (h : m.RLock = some m1) :
    m1.RUnlock = some m := by
  unfold RWMutex.RLock at h
  split at h
  · simp at h
  · simp only [Option.some.injEq] at h
    subst h
    simp [RWMutex.RUnlock]

theorem CacheRun.deferRUnlock_cacheOK {X : Type} (r : CacheRun X) :
    r.deferRUnlock.t.cacheOK = r.t.cacheOK ∧ r.deferRUnlock.t.paistat = r.t.paistat ∧
    r.deferRUnlock.trace = r.trace ∧ r.deferRUnlock.stub = r.stub := by
  unfold CacheRun.deferRUnlock
  split
  · split <;> simp
  · simp

theorem updateCache_not_loaded {X : Type} (pb : Proto X) (t : PaiChaincode)
    (stub : ChaincodeStub) (h : t.cacheOK = false) :
    (updateCache pb t stub).out = .blocked ∧ (updateCache pb t stub).trace = [] ∧
    (updateCache pb t stub).t.cacheOK = false ∧
    (updateCache pb t stub).t.paistat = t.paistat ∧
    (updateCache pb t stub).stub = stub := by
  unfold updateCache
  cases hr : t.globalLock.RLock with
  | none => simp [h]
  | some m1 => simp [h, RWMutex.Lock_after_RLock _ _ hr]

theorem updateCache_loaded {X : Type} (pb : Proto X) (t : PaiChaincode)
    (stub : ChaincodeStub) (h : t.cacheOK = true) :
    (updateCache pb t stub).t = t ∧ (updateCache pb t stub).trace = [] ∧
    (updateCache pb t stub).stub = stub ∧
    (∀ m1, t.globalLock.RLock = some m1 → (updateCache pb t stub).out = .returned none) ∧
    (t.globalLock.RLock = none → (updateCache pb t stub).out = .blocked) := by
  obtain ⟨l, c, p⟩ := t
  simp only at h
  subst h
  unfold updateCache
  cases hr : l.RLock with
  | none => simp [hr]
  | some m1 =>
    have hu := RWMutex.RUnlock_after_RLock _ _ hr
    simp [hr, CacheRun.deferRUnlock, hu]

theorem updateCache_keeps {X : Type} (pb : Proto X) (t : PaiChaincode) (stub : ChaincodeStub) :
    (updateCache pb t stub).trace = [] ∧
    (updateCache pb t stub).t.cacheOK = t.cacheOK ∧
    (updateCache pb t stub).t.paistat = t.paistat ∧
    (updateCache pb t stub).stub = stub := by
  cases h : t.cacheOK
  · obtain ⟨_, h2, h3, h4, h5⟩ := updateCache_not_loaded pb t stub h
    exact ⟨h2, h3, h4, h5⟩
  · obtain ⟨h1, h2, h3, _⟩ := updateCache_loaded pb t stub h
    exact ⟨h2, by rw [h1, h], by rw [h1], h3⟩

theorem updateCache_returned_iff {X : Type} (pb : Proto X) (t : PaiChaincode)
    (stub : ChaincodeStub) (err : Option GoError) :
    (updateCache pb t stub).out = .returned err ↔
      (err = none ∧ t.cacheOK = true ∧ t.globalLock.RLock ≠ none) := by
  cases h : t.cacheOK
  · simp [(updateCache_not_loaded pb t stub h).1]
  · obtain ⟨_, _, _, h4, h5⟩ := updateCache_loaded pb t stub h
    cases hr : t.globalLock.RLock with
    | none => simp [h5 hr]
    | some m1 =>
      rw [h4 m1 hr]
      simp [eq_comm]

theorem updateCacheTimes_not_loaded {X : Type} (pb : Proto X) (stub : ChaincodeStub) (n : Nat)
    (t : PaiChaincode) (h : t.cacheOK = false) :
    (updateCacheTimes pb stub n t).1 = List.replicate n CallEnd.blocked ∧
    (updateCacheTimes pb stub n t).2.1.cacheOK = false ∧
    (updateCacheTimes pb stub n t).2.1.paistat = t.paistat := by
  induction n generalizing t with
  | zero => simp [updateCacheTimes, h]
  | succ k ih =>
    obtain ⟨h1, _, h3, h4, _⟩ := updateCache_not_loaded pb t stub h
    obtain ⟨i1, i2, i3⟩ := ih (updateCache pb t stub).t h3
    simp only [updateCacheTimes]
    exact ⟨by rw [h1, i1, List.replicate_succ], i2, by rw [i3, h4]⟩

theorem updateCacheTimes_trace {X : Type} (pb : Proto X) (stub : ChaincodeStub) (n : Nat)
    (t : PaiChaincode) : (updateCacheTimes pb stub n t).2.2 = ([] : List (Event X)) := by
  induction n generalizing t with
  | zero => rfl
  | succ k ih =>
    simp only [updateCacheTimes]
    rw [(updateCache_keeps pb t stub).1, ih]
    rfl

theorem saveGlobalStatus_body_cacheOK_of_present {X : Type} (pb : Proto X) (t : PaiChaincode)
    (stub : ChaincodeStub) (h : stub.GetState global_setting_entry ≠ .ok none) :
    (saveGlobalStatus.body pb t stub).t.cacheOK = t.cacheOK := by
  unfold saveGlobalStatus.body
  split
  · rfl
  · split
    · rfl
    · rename_i hg
      exact absurd hg h
    · split
      · rfl
      · split <;> rfl

theorem saveGlobalStatus_body_cacheOK_of_missing {X : Type} (pb : Proto X) (t : PaiChaincode)
    (stub : ChaincodeStub) (h : stub.GetState global_setting_entry = .ok none) :
    (saveGlobalStatus.body pb t stub).t.cacheOK = false := by
  cases hc : t.cacheOK <;> simp [saveGlobalStatus.body, hc, h]

theorem saveGlobalStatus_cacheOK_of_present {X : Type} (pb : Proto X) (t : PaiChaincode)
    (stub : ChaincodeStub) (h : stub.GetState global_setting_entry ≠ .ok none) :
    (saveGlobalStatus pb t stub).t.cacheOK = t.cacheOK := by
  unfold saveGlobalStatus
  cases hr : t.globalLock.RLock with
  | none => rfl
  | some m1 =>
    simp only []
    rw [(CacheRun.deferRUnlock_cacheOK _).1, saveGlobalStatus_body_cacheOK_of_present pb _ stub h]

theorem saveGlobalStatus_cacheOK_iff {X : Type} (pb : Proto X) (t : PaiChaincode)
    (stub : ChaincodeStub) (m1 : RWMutex) (h : t.cacheOK = true)
    (hr : t.globalLock.RLock = some m1) :
    (saveGlobalStatus pb t stub).t.cacheOK = false ↔
      stub.GetState global_setting_entry = .ok none := by
  constructor
  · intro hf
    by_contra hne
    rw [saveGlobalStatus_cacheOK_of_present pb t stub hne, h] at hf
    exact Bool.noConfusion hf
  · intro hm
    unfold saveGlobalStatus
    simp only [hr]
    rw [(CacheRun.deferRUnlock_cacheOK _).1]
    exact saveGlobalStatus_body_cacheOK_of_missing pb _ stub hm

theorem sampleProto_inverts (s : DeploySetting Unit) (b : GoString)
    (h : sampleProto.Marshal s = .ok b) : sampleProto.Unmarshal b = .ok s := by
  obtain ⟨a, c, u⟩ := s
  simp only [sampleProto] at h ⊢
  split at h
  · rename_i hr
    obtain ⟨h1, h2, h3, h4⟩ := hr
    simp only [Except.ok.injEq] at h
    subst h
    have ha : a.toNat % 256 = a.toNat := Nat.mod_eq_of_lt (by omega)
    have hc : c.toNat % 256 = c.toNat := Nat.mod_eq_of_lt (by omega)
    simp [UInt8.toNat, UInt8.ofNat, Fin.ofNat, ha, hc, Int.toNat_of_nonneg h1,
      Int.toNat_of_nonneg h3]
  · simp at h

theorem take_FuncPrefix_of_group (grp function : GoString) (hlen : grp.length = FuncPrefix)
    (hpre : grp <+: function) :
    function.take FuncPrefix = grp ∧ ¬ function.length < FuncPrefix := by
  have h1 := List.prefix_iff_eq_take.1 hpre
  have h2 := hpre.length_le
  rw [hlen] at h1 h2
  exact ⟨h1.symm, by omega⟩

/-! ## The data path behind the lock

What the load of `updateCache` and the gate of `Invoke` compute in a state in
which the cache is already marked loaded, or once the write lock is assumed
taken. No call sequence of the code reaches these states: they are stated for
the record of what the code behind the lock does. -/

theorem load_after_save_roundtrip {X : Type} (pb : Proto X) (t t0 : PaiChaincode)
    (stub : ChaincodeStub)
    (hinv : ∀ s b, pb.Marshal s = .ok b → pb.Unmarshal b = .ok s)
    (hsave : (saveGlobalStatus.body pb t stub).out = .returned none) :
    (updateCache.load pb t0 (saveGlobalStatus.body pb t stub).stub).out = .returned none ∧
    (updateCache.load pb t0 (saveGlobalStatus.body pb t stub).stub).t.cacheOK = true ∧
    (updateCache.load pb t0 (saveGlobalStatus.body pb t stub).stub).t.paistat = t.paistat := by
  have hc : t.cacheOK = true := by
    cases hc : t.cacheOK
    · simp [saveGlobalStatus.body, hc] at hsave
    · rfl
  simp only [saveGlobalStatus.body, hc, Bool.not_true, Bool.false_eq_true, if_false] at hsave ⊢
  cases hg : stub.GetState global_setting_entry with
  | error e => simp [hg] at hsave
  | ok v =>
    cases v with
    | none => simp [hg] at hsave
    | some raw =>
      cases hu : pb.Unmarshal raw with
      | error e => simp [hg, hu] at hsave
      | ok s =>
        cases hm : pb.Marshal (t.paistat.set s) with
        | error e => simp [hg, hu, hm] at hsave
        | ok raw2 =>
          simp only [hg, hu, hm] at hsave ⊢
          have hf : stub.getFault global_setting_entry = none := by
            cases hf : stub.getFault global_setting_entry with
            | none => rfl
            | some e => simp [ChaincodeStub.GetState, hf] at hg
          have hp : stub.putFault global_setting_entry raw2 = none := by
            cases hp : stub.putFault global_setting_entry raw2 with
            | none => rfl
            | some e => simp [ChaincodeStub.PutState, hp] at hsave
          have hget : (stub.PutState global_setting_entry raw2).2.GetState global_setting_entry
              = .ok (some raw2) := by
            simp [ChaincodeStub.PutState, ChaincodeStub.GetState, hp, hf]
          have hdec := hinv _ _ hm
          simp [updateCache.load, hget, hdec, paiStatus.init, paiStatus.set]

theorem Invoke_gate_when_cache_loaded {X Rg : Type} (pb : Proto X) (sec : SecHelper Rg)
    (handler : UserHandler Rg) (t : PaiChaincode) (stub : ChaincodeStub)
    (function : GoString) (args : List GoString) (grp : GoString)
    (hload : (updateCache pb t stub).out = .returned none)
    (hgrp : grp = Admin_funcs ∨ grp = Manage_funcs ∨ grp = User_funcs ∨ grp = Query_funcs)
    (hpre : grp <+: function) :
    (sec.VerifyPrivilege (sec.GetPrivilege stub).1 (privilege_Def sec grp) = true →
      (grp = Admin_funcs ∨ grp = Manage_funcs →
        (Invoke pb sec handler t stub function args).out = .returned none ∧
        (Invoke pb sec handler t stub function args).trace = []) ∧
      (grp = User_funcs →
        (Invoke pb sec handler t stub function args).out = .returned
          (handler (updateCache pb t stub).t (updateCache pb t stub).stub function
            (sec.GetPrivilege stub).2 args).err ∧
        (Invoke pb sec handler t stub function args).trace
          = [.handleUserFuncs function args]) ∧
      (grp = Query_funcs →
        (Invoke pb sec handler t stub function args).out
          = .returned (some (.errorsNew (str "Function group not exist or invokable"))) ∧
        (Invoke pb sec handler t stub function args).trace = [])) ∧
    (sec.VerifyPrivilege (sec.GetPrivilege stub).1 (privilege_Def sec grp) = false →
      (Invoke pb sec handler t stub function args).out
        = .returned (some (.errorsNew (str "No priviledge"))) ∧
      (Invoke pb sec handler t stub function args).trace
        = [.ActiveAudit (auditMsg function)]) := by
  have hglen : grp.length = FuncPrefix := by
    rcases hgrp with rfl | rfl | rfl | rfl <;> decide
  obtain ⟨htake, hlen⟩ := take_FuncPrefix_of_group grp function hglen hpre
  have htr := (updateCache_keeps pb t stub).1
  have hAM : Admin_funcs ≠ Manage_funcs := by decide
  have hAU : Admin_funcs ≠ User_funcs := by decide
  have hAQ : Admin_funcs ≠ Query_funcs := by decide
  have hMU : Manage_funcs ≠ User_funcs := by decide
  have hMQ : Manage_funcs ≠ Query_funcs := by decide
  have hUQ : User_funcs ≠ Query_funcs := by decide
  constructor
  · intro hv
    rcases hgrp with rfl | rfl | rfl | rfl
    · simp [Invoke, Invoke.dispatch, hload, hlen, htake, hv, htr, hAM, hAU, hAQ]
    · simp [Invoke, Invoke.dispatch, hload, hlen, htake, hv, htr, hAM.symm, hMU, hMQ]
    · simp [Invoke, Invoke.dispatch, hload, hlen, htake, hv, htr, hAU.symm, hMU.symm, hUQ]
    · simp [Invoke, Invoke.dispatch, hload, hlen, htake, hv, htr, hAQ.symm, hMQ.symm,
        hUQ.symm]
  · intro hv
    simp [Invoke, Invoke.dispatch, hload, hlen, htake, hv, htr]

theorem Invoke_slice_when_cache_loaded {X Rg : Type} (pb : Proto X) (sec : SecHelper Rg)
    (handler : UserHandler Rg) (t : PaiChaincode) (stub : ChaincodeStub)
    (function : GoString) (args : List GoString)
    (hload : (updateCache pb t stub).out = .returned none)
    (hshort : function.length < FuncPrefix) :
    (Invoke pb sec handler t stub function args).out = .sliceOutOfRange := by
  simp [Invoke, Invoke.dispatch, hload, hshort]

theorem Invoke_not_loaded {X Rg : Type} (pb : Proto X) (sec : SecHelper Rg)
    (handler : UserHandler Rg) (t : PaiChaincode) (stub : ChaincodeStub)
    (function : GoString) (args : List GoString) (h : t.cacheOK = false) :
    (Invoke pb sec handler t stub function args).out = .blocked ∧
    (Invoke pb sec handler t stub function args).trace = [] ∧
    (Invoke pb sec handler t stub function args).t.cacheOK = false := by
  obtain ⟨h1, h2, h3, _, _⟩ := updateCache_not_loaded pb t stub h
  simp [Invoke, h1, h2, h3]

/-! ## The claims about the global-setting cache -/

/-- C2 on the code: whatever `saveGlobalStatus` wrote, `updateCache` on a cache
with `cacheOK = false` run against the store it left does not return: it asks for
the write lock of `globalLock` (line 58) while holding the read lock it took on
entry (line 54). No `GetState` is issued, `cacheOK` stays false and `paistat` is
not touched, so the saved status is never read back. -/
theorem updateCache_after_saveGlobalStatus_blocks {X : Type} (pb : Proto X)
    (t t0 : PaiChaincode) (stub : ChaincodeStub) (hfresh : t0.cacheOK = false) :
    (updateCache pb t0 (saveGlobalStatus pb t stub).stub).out = .blocked ∧
    (∀ err, (updateCache pb t0 (saveGlobalStatus pb t stub).stub).out ≠ .returned err) ∧
    (updateCache pb t0 (saveGlobalStatus pb t stub).stub).trace.countP Event.isGetState = 0 ∧
    (updateCache pb t0 (saveGlobalStatus pb t stub).stub).t.cacheOK = false ∧
    (updateCache pb t0 (saveGlobalStatus pb t stub).stub).t.paistat = t0.paistat := by
  obtain ⟨h1, h2, h3, h4, _⟩ :=
    updateCache_not_loaded pb t0 (saveGlobalStatus pb t stub).stub hfresh
  refine ⟨h1, fun err => ?_, ?_, h3, h4⟩
  · rw [h1]
    exact fun hc => CallEnd.noConfusion hc
  · rw [h2]
    rfl

/-- C2 on the code, at a concrete input: `saveGlobalStatus` from a state marked
loaded with status (7, 3) returns nil and leaves the record (7, 3) in the store;
`updateCache` on a new instance against that store does not return and leaves
`cacheOK = false`. -/
theorem updateCache_after_saveGlobalStatus_blocks_witness :
    (saveGlobalStatus sampleProto (loadedChaincode ⟨7, 3⟩) (storeWith (some [1, 1]))).out
      = .returned none ∧
    (saveGlobalStatus sampleProto (loadedChaincode ⟨7, 3⟩)
      (storeWith (some [1, 1]))).stub.ledger global_setting_entry = some [7, 3] ∧
    (updateCache sampleProto newPaiChaincode
      (saveGlobalStatus sampleProto (loadedChaincode ⟨7, 3⟩) (storeWith (some [1, 1]))).stub).out
      = .blocked ∧
    (updateCache sampleProto newPaiChaincode
      (saveGlobalStatus sampleProto (loadedChaincode ⟨7, 3⟩)
        (storeWith (some [1, 1]))).stub).t.cacheOK = false :=
  ⟨by decide, by decide,
    (updateCache_after_saveGlobalStatus_blocks sampleProto (loadedChaincode ⟨7, 3⟩)
      newPaiChaincode (storeWith (some [1, 1])) rfl).1,
    (updateCache_after_saveGlobalStatus_blocks sampleProto (loadedChaincode ⟨7, 3⟩)
      newPaiChaincode (storeWith (some [1, 1])) rfl).2.2.2.1⟩

/-- C3 on the code: in `N` calls of `updateCache` on one instance against one
store no `GetState` is ever issued, whatever the state the first call finds; and
when that state has `cacheOK = false`, as on a new instance, none of the `N`
calls returns (the first waits for the write lock under its own read lock, the
later ones wait behind it) and `cacheOK` is still false after them. A first
call can return only where `cacheOK` is already true, and then it reads
nothing: the single read of the claim is issued at no input. -/
theorem updateCacheTimes_never_reads {X : Type} (pb : Proto X) (stub : ChaincodeStub)
    (N : Nat) (t : PaiChaincode) :
    (updateCacheTimes pb stub N t).2.2.countP Event.isGetState = 0 ∧
    (t.cacheOK = false →
      (updateCacheTimes pb stub N t).1 = List.replicate N CallEnd.blocked ∧
      (updateCacheTimes pb stub N t).2.1.cacheOK = false) ∧
    (∀ err, (updateCache pb t stub).out = .returned err →
      t.cacheOK = true ∧ (updateCache pb t stub).trace.countP Event.isGetState = 0) := by
  refine ⟨?_, fun h => ?_, fun err h => ?_⟩
  · rw [updateCacheTimes_trace]
    rfl
  · obtain ⟨h1, h2, _⟩ := updateCacheTimes_not_loaded pb stub N t h
    exact ⟨h1, h2⟩
  · refine ⟨((updateCache_returned_iff pb t stub err).1 h).2.1, ?_⟩
    rw [(updateCache_keeps pb t stub).1]
    rfl

/-- C3 on the code, at a concrete input: three calls on a new instance against a
store that holds a decodable record; none returns, nothing is read. -/
theorem updateCacheTimes_never_reads_witness :
    (updateCacheTimes sampleProto (storeWith (some [1, 1])) 3 newPaiChaincode).1
      = [.blocked, .blocked, .blocked] ∧
    (updateCacheTimes sampleProto (storeWith (some [1, 1])) 3 newPaiChaincode).2.1.cacheOK
      = false ∧
    (updateCacheTimes sampleProto (storeWith (some [1, 1])) 3 newPaiChaincode).2.2.countP
      Event.isGetState = 0 :=
  ⟨((updateCacheTimes_never_reads sampleProto (storeWith (some [1, 1])) 3
      newPaiChaincode).2.1 rfl).1,
   ((updateCacheTimes_never_reads sampleProto (storeWith (some [1, 1])) 3
      newPaiChaincode).2.1 rfl).2,
   (updateCacheTimes_never_reads sampleProto (storeWith (some [1, 1])) 3 newPaiChaincode).1⟩

/-- C4 as stated fails: from a state in which `cacheOK` is true (given, the mutex
free), `saveGlobalStatus` handed a store in which the record is missing returns
"FATAL: No global setting found" and leaves `cacheOK` false (lines 101 to 104):
an operation that takes the cache from `cacheOK = true` to `cacheOK = false`. -/
theorem cacheOK_reset_by_saveGlobalStatus :
    (loadedChaincode ⟨7, 3⟩).cacheOK = true ∧
    (saveGlobalStatus sampleProto (loadedChaincode ⟨7, 3⟩) (storeWith none)).out
      = .returned (some (.errorsNew (str "FATAL: No global setting found"))) ∧
    (saveGlobalStatus sampleProto (loadedChaincode ⟨7, 3⟩) (storeWith none)).t.cacheOK
      = false ∧
    cacheOKHistory sampleProto (loadedChaincode ⟨7, 3⟩) [(.saveGlobalStatus, storeWith none)]
      = [false] := by
  decide

/-- C4 amended: from a state with `cacheOK = true`, `updateCache` never resets
the flag, `saveGlobalStatus` (once it has the read lock) resets it exactly when
its `GetState` re-read succeeds and finds no record, and so in every sequence of
the two operations, each against whatever store the host hands it, `cacheOK`
stays true after every call as long as no `saveGlobalStatus` call finds the
record missing. -/
theorem cacheOK_kept_unless_record_missing {X : Type} (pb : Proto X) (t : PaiChaincode)
    (calls : List (CacheOp × ChaincodeStub)) (hok : t.cacheOK = true)
    (hpresent : ∀ c ∈ calls, c.1 = CacheOp.saveGlobalStatus →
      c.2.GetState global_setting_entry ≠ .ok none) :
    (∀ b ∈ cacheOKHistory pb t calls, b = true) ∧
    (∀ stub, (updateCache pb t stub).t.cacheOK = true) ∧
    (∀ stub m1, t.globalLock.RLock = some m1 →
      ((saveGlobalStatus pb t stub).t.cacheOK = false ↔
        stub.GetState global_setting_entry = .ok none)) := by
  refine ⟨?_, fun stub => ?_, fun stub m1 hr => saveGlobalStatus_cacheOK_iff pb t stub m1 hok hr⟩
  · induction calls generalizing t with
    | nil => simp [cacheOKHistory]
    | cons c cs ih =>
      have hstep : (CacheOp.run pb t c).t.cacheOK = true := by
        obtain ⟨op, stub⟩ := c
        cases op with
        | updateCache =>
          simp only [CacheOp.run]
          rw [(updateCache_keeps pb t stub).2.1, hok]
        | saveGlobalStatus =>
          have hne := hpresent (CacheOp.saveGlobalStatus, stub) (by simp) rfl
          simp only [CacheOp.run]
          rw [saveGlobalStatus_cacheOK_of_present pb t stub hne, hok]
      intro b hb
      simp only [cacheOKHistory, List.mem_cons] at hb
      rcases hb with hb | hb
      · rw [hb, hstep]
      · exact ih (CacheOp.run pb t c).t hstep
          (fun c2 hc2 => hpresent c2 (List.mem_cons_of_mem _ hc2)) b hb
  · rw [(updateCache_keeps pb t stub).2.1, hok]

/-- C4 amended, at a concrete input: from a state marked loaded, one
`updateCache` and one `saveGlobalStatus` against a store that holds the record. -/
theorem cacheOK_kept_unless_record_missing_witness :
    cacheOKHistory sampleProto (loadedChaincode ⟨7, 3⟩)
      [(.updateCache, storeWith none), (.saveGlobalStatus, storeWith (some [1, 1]))]
      = [true, true] ∧
    (∀ b ∈ cacheOKHistory sampleProto (loadedChaincode ⟨7, 3⟩)
        [(.updateCache, storeWith none), (.saveGlobalStatus, storeWith (some [1, 1]))],
      b = true) :=
  ⟨by decide,
   (cacheOK_kept_unless_record_missing sampleProto (loadedChaincode ⟨7, 3⟩)
    [(.updateCache, storeWith none), (.saveGlobalStatus, storeWith (some [1, 1]))] rfl
    (by
      intro c hc hsave
      simp only [List.mem_cons, List.mem_singleton, List.not_mem_nil, or_false] at hc
      rcases hc with rfl | rfl
      · simp at hsave
      · simp [storeWith, ChaincodeStub.GetState])).1⟩

/-! ## The claims about `Invoke` -/

/-- C1 on the code: on an instance whose cache is not loaded, as every new
instance is, `Invoke` with a function name that begins with one of `ADMN`,
`MANG`, `USER`, `QURY` does not return, whatever `VerifyPrivilege` would answer
for the caller: the name is long enough for the slice and its group is the
prefix, but `updateCache` waits for the write lock under its own read lock
(lines 54, 58) before the privilege is looked at. Nothing is dispatched, no
"No priviledge" error is returned, `ActiveAudit` is not called, no handler is
called, and the cache is still not loaded. -/
theorem Invoke_blocks_before_privilege_check {X Rg : Type} (pb : Proto X)
    (sec : SecHelper Rg) (handler : UserHandler Rg) (t : PaiChaincode)
    (stub : ChaincodeStub) (function : GoString) (args : List GoString) (grp : GoString)
    (hfresh : t.cacheOK = false)
    (hgrp : grp = Admin_funcs ∨ grp = Manage_funcs ∨ grp = User_funcs ∨ grp = Query_funcs)
    (hpre : grp <+: function) :
    (function.take FuncPrefix = grp ∧ ¬ function.length < FuncPrefix) ∧
    (Invoke pb sec handler t stub function args).out = .blocked ∧
    (∀ err, (Invoke pb sec handler t stub function args).out ≠ .returned err) ∧
    (Invoke pb sec handler t stub function args).trace.countP Event.isActiveAudit = 0 ∧
    (Invoke pb sec handler t stub function args).trace.countP Event.isHandler = 0 ∧
    (Invoke pb sec handler t stub function args).t.cacheOK = false := by
  have hglen : grp.length = FuncPrefix := by
    rcases hgrp with rfl | rfl | rfl | rfl <;> decide
  obtain ⟨h1, h2, h3⟩ := Invoke_not_loaded pb sec handler t stub function args hfresh
  refine ⟨take_FuncPrefix_of_group grp function hglen hpre, h1, fun err => ?_, ?_, ?_, h3⟩
  · rw [h1]
    exact fun hc => CallEnd.noConfusion hc
  · rw [h2]
    rfl
  · rw [h2]
    rfl

/-- C1 on the code, at a concrete input: `USER_FUND` invoked on a new instance by
a caller whose privilege `VerifyPrivilege` accepts, against a store that holds a
decodable record. -/
theorem Invoke_blocks_before_privilege_check_witness :
    (sampleSec (str "delegate")).VerifyPrivilege
      ((sampleSec (str "delegate")).GetPrivilege (storeWith (some [1, 1]))).1
      (privilege_Def (sampleSec (str "delegate")) User_funcs) = true ∧
    (Invoke sampleProto (sampleSec (str "delegate")) (sampleHandler none) newPaiChaincode
      (storeWith (some [1, 1])) UserFund []).out = .blocked ∧
    (Invoke sampleProto (sampleSec (str "delegate")) (sampleHandler none) newPaiChaincode
      (storeWith (some [1, 1])) UserFund []).trace.countP Event.isHandler = 0 :=
  ⟨by decide,
   (Invoke_blocks_before_privilege_check sampleProto (sampleSec (str "delegate"))
      (sampleHandler none) newPaiChaincode (storeWith (some [1, 1])) UserFund [] User_funcs
      rfl (Or.inr (Or.inr (Or.inl rfl))) ⟨str "_FUND", rfl⟩).2.1,
   (Invoke_blocks_before_privilege_check sampleProto (sampleSec (str "delegate"))
      (sampleHandler none) newPaiChaincode (storeWith (some [1, 1])) UserFund [] User_funcs
      rfl (Or.inr (Or.inr (Or.inl rfl))) ⟨str "_FUND", rfl⟩).2.2.2.2.1⟩

/-- C10 on the code: `Invoke` is not total. On an instance whose cache is not
loaded, as every new instance is, it returns no result for any function name,
the empty one and those shorter than `FuncPrefix` included: `updateCache` waits
for the write lock under its own read lock (lines 54, 58), so the call never
comes to the slice `function[:tx.FuncPrefix]` and no error is returned. -/
theorem Invoke_never_returns_when_not_loaded {X Rg : Type} (pb : Proto X)
    (sec : SecHelper Rg) (handler : UserHandler Rg) (t : PaiChaincode)
    (stub : ChaincodeStub) (function : GoString) (args : List GoString)
    (hfresh : t.cacheOK = false) :
    (Invoke pb sec handler t stub function args).out = .blocked ∧
    (∀ err, (Invoke pb sec handler t stub function args).out ≠ .returned err) ∧
    (Invoke pb sec handler t stub function args).out ≠ .sliceOutOfRange ∧
    (Invoke pb sec handler t stub function args).trace = [] := by
  obtain ⟨h1, h2, _⟩ := Invoke_not_loaded pb sec handler t stub function args hfresh
  refine ⟨h1, fun err => ?_, ?_, h2⟩
  · rw [h1]
    exact fun hc => CallEnd.noConfusion hc
  · rw [h1]
    exact fun hc => CallEnd.noConfusion hc

/-- C10 on the code, at the empty function name and at `AB`, on a new instance
against a store that holds a decodable record. -/
theorem Invoke_never_returns_when_not_loaded_witness :
    (Invoke sampleProto (sampleSec (str "admin")) (sampleHandler none) newPaiChaincode
      (storeWith (some [1, 1])) (str "") []).out = .blocked ∧
    (Invoke sampleProto (sampleSec (str "admin")) (sampleHandler none) newPaiChaincode
      (storeWith (some [1, 1])) (str "AB") []).out = .blocked :=
  ⟨(Invoke_never_returns_when_not_loaded sampleProto (sampleSec (str "admin"))
      (sampleHandler none) newPaiChaincode (storeWith (some [1, 1])) (str "") [] rfl).1,
   (Invoke_never_returns_when_not_loaded sampleProto (sampleSec (str "admin"))
      (sampleHandler none) newPaiChaincode (storeWith (some [1, 1])) (str "AB") [] rfl).1⟩

/-! ## The claims about `Fund` -/

theorem Atoi_ok_lt (s : GoString) (h : (Atoi s).2 = none) :
    (Atoi s).1 < 2 ^ (intSize - 1) := by
  unfold Atoi at h ⊢
  generalize (if s.head? = some 43 ∨ s.head? = some 45 then s.tail else s) = body at h ⊢
  simp only [intSize] at h ⊢
  by_cases hb : body = []
  · simp [hb] at h
  · simp only [hb, if_false] at h ⊢
    cases hp : parseUintDigits body 0 with
    | error k =>
      cases k <;> simp only [hp] at h
      · simp at h
      · split_ifs at h
    | ok un =>
      simp only [hp] at h ⊢
      split_ifs at h ⊢ <;> simp at h ⊢ <;> omega

theorem Atoi_scans_left_to_right :
    Atoi (str "99999999999999999999x")
      = (2 ^ 63 - 1, some (.NumError (str "99999999999999999999x") .outOfRange)) ∧
    Atoi (str "9223372036854775808x")
      = (0, some (.NumError (str "9223372036854775808x") .invalidDigits)) ∧
    Atoi (str "9223372036854775807") = (2 ^ 63 - 1, none) ∧
    Atoi (str "-9223372036854775808") = (-(2 ^ 63), none) ∧
    Atoi (str "9223372036854775808")
      = (2 ^ 63 - 1, some (.NumError (str "9223372036854775808") .outOfRange)) ∧
    Atoi (str "+7") = (7, none) ∧
    Atoi (str "-") = (0, some (.NumError (str "-") .invalidDigits)) ∧
    Atoi (str "") = (0, some (.NumError (str "") .invalidDigits)) ∧
    Atoi (str "1_0") = (0, some (.NumError (str "1_0") .invalidDigits)) := by
  decide

theorem uint_of_nonneg (i : Int) (h0 : 0 ≤ i) (h1 : i < 2 ^ (intSize - 1)) :
    uint i = i.toNat := by
  unfold uint
  simp only [intSize] at h1 ⊢
  rw [Int.emod_eq_of_lt h0 (by omega)]

theorem Fund_send_records {Key : Type} (co : Collab Key) (m : rpcManager Key) (id : GoString)
    (fund : FundTx) :
    (∀ f ∈ signedRecords (Fund.send co m id fund).trace, f = fund) ∧
    (∀ pk, m.PrivKey = some pk → signedRecords (Fund.send co m id fund).trace = [fund]) := by
  unfold Fund.send
  cases hk : m.PrivKey with
  | none => simp [signedRecords]
  | some pk =>
    cases hs : (co.MakeTransaction fund pk.K).2 with
    | some e => simp [hs, signedRecords]
    | none =>
      cases hb : m.Rpcbuilder with
      | none => simp [hs, signedRecords]
      | some rb => simp [hs, signedRecords]

/-- C5 as stated fails when more than three arguments are given: the message
argument `hello` is present, the address and the amount are valid, and the
record handed to signing has no nonce. -/
theorem Fund_four_args_no_nonce :
    signedRecords (Fund sampleCollab sampleManager
      [str "validAddr", str "100", str "hello", str "x"]).trace
      = [⟨⟨str "validAddr", 100⟩, false, none⟩] := by
  decide

/-- C5 amended: for every argument list with `len(args) >= 2` whose address is
accepted, whose amount parses to an integer `n >= 0` and whose message, when
exactly three arguments are given, is at most 256 bytes, every record that `Fund`
hands to signing has recipient `args[0]`, amount `n` (no wrap-around),
`Invoked = false`, and nonce equal to the bytes of `args[2]` when
`len(args) = 3` and nil otherwise; with a key present exactly one such record is
handed over. -/
theorem Fund_record_handed_to_signing {Key : Type} (co : Collab Key) (m : rpcManager Key)
    (args : List GoString)
    (hlen : 2 ≤ args.length)
    (haddr : (co.VerifyUserId (args.getD 0 [])).1 = true)
    (hparse : (Atoi (args.getD 1 [])).2 = none)
    (hnonneg : 0 ≤ (Atoi (args.getD 1 [])).1)
    (hmsg : args.length = 3 → (args.getD 2 []).length ≤ fundNounceMaxLen) :
    (∀ f ∈ signedRecords (Fund co m args).trace,
      f.data.recipient = args.getD 0 [] ∧
      (f.data.amount : Int) = (Atoi (args.getD 1 [])).1 ∧
      f.Invoked = false ∧
      f.Nounce = if args.length = 3 then some (args.getD 2 []) else none) ∧
    (∀ pk, m.PrivKey = some pk →
      signedRecords (Fund co m args).trace
        = [⟨⟨args.getD 0 [], (Atoi (args.getD 1 [])).1.toNat⟩, false,
            if args.length = 3 then some (args.getD 2 []) else none⟩]) := by
  have hu := uint_of_nonneg _ hnonneg (Atoi_ok_lt _ hparse)
  have hl : ¬ args.length < 2 := by omega
  have hn : ¬ (Atoi (args.getD 1 [])).1 < 0 := by omega
  have hcast : (((Atoi (args.getD 1 [])).1.toNat : Nat) : Int) = (Atoi (args.getD 1 [])).1 :=
    Int.toNat_of_nonneg hnonneg
  by_cases h3 : args.length = 3
  · have hm : ¬ (args.getD 2 []).length > fundNounceMaxLen := by
      have := hmsg h3
      omega
    have hF : Fund co m args = Fund.send co m (args.getD 0 [])
        ⟨⟨args.getD 0 [], (Atoi (args.getD 1 [])).1.toNat⟩, false, some (args.getD 2 [])⟩ := by
      simp only [Fund, hl, haddr, hparse, hn, h3, hm, hu]
      simp
    rw [hF]
    obtain ⟨ha, hb⟩ := Fund_send_records co m (args.getD 0 [])
      ⟨⟨args.getD 0 [], (Atoi (args.getD 1 [])).1.toNat⟩, false, some (args.getD 2 [])⟩
    refine ⟨fun f hf => ?_, fun pk hpk => ?_⟩
    · rw [ha f hf]
      exact ⟨rfl, hcast, rfl, by rw [if_pos h3]⟩
    · rw [hb pk hpk, if_pos h3]
  · have hF : Fund co m args = Fund.send co m (args.getD 0 [])
        ⟨⟨args.getD 0 [], (Atoi (args.getD 1 [])).1.toNat⟩, false, none⟩ := by
      simp only [Fund, hl, haddr, hparse, hn, h3, hu]
      simp
    rw [hF]
    obtain ⟨ha, hb⟩ := Fund_send_records co m (args.getD 0 [])
      ⟨⟨args.getD 0 [], (Atoi (args.getD 1 [])).1.toNat⟩, false, none⟩
    refine ⟨fun f hf => ?_, fun pk hpk => ?_⟩
    · rw [ha f hf]
      exact ⟨rfl, hcast, rfl, by rw [if_neg h3]⟩
    · rw [hb pk hpk, if_neg h3]

/-- C5 amended, at the input of the claim: `Fund("validAddr", "100", "")` hands
one record to signing, with recipient `validAddr`, amount 100 and an empty nonce. -/
theorem Fund_record_handed_to_signing_witness :
    signedRecords (Fund sampleCollab sampleManager [str "validAddr", str "100", str ""]).trace
      = [⟨⟨str "validAddr", 100⟩, false, some []⟩] :=
  (Fund_record_handed_to_signing sampleCollab sampleManager
    [str "validAddr", str "100", str ""] (by decide) (by decide) (by decide) (by decide)
    (by decide)).2 ⟨42⟩ rfl

theorem message_length (n : Nat) : (message n).length = n := by
  simp [message]

theorem Fund_send_returned_trace {Key : Type} (co : Collab Key) (m : rpcManager Key)
    (id : GoString) (fund : FundTx) (txid : GoString) (err : Option GoError)
    (h : (Fund.send co m id fund).out = .returned txid err) :
    3 ≤ (Fund.send co m id fund).trace.length := by
  unfold Fund.send at h ⊢
  cases hk : m.PrivKey with
  | none => simp [hk] at h
  | some pk =>
    cases hs : (co.MakeTransaction fund pk.K).2 with
    | some e => simp [hs]
    | none =>
      cases hb : m.Rpcbuilder with
      | none => simp [hk, hs, hb] at h
      | some rb => simp [hs]

/-- C6 as stated fails for a non-numeric amount: `Fund("validAddr", "abc")`
returns the parse error of `strconv.Atoi`, which is not the "Invalid amount" error. -/
theorem Fund_non_numeric_amount_returns_parse_error :
    (Fund sampleCollab sampleManager [str "validAddr", str "abc"]).out
      = .returned [] (some (.NumError (str "abc") .invalidDigits)) ∧
    (Fund sampleCollab sampleManager [str "validAddr", str "abc"]).out
      ≠ .returned [] (some (.errorsNew (str "Invalid amount"))) := by
  decide

/-- C6 amended: for every argument list with `len(args) >= 2` whose address is
accepted, if `strconv.Atoi` rejects `args[1]` then `Fund` fails with that parse
error, and if `args[1]` parses to a negative integer then `Fund` fails with
"Invalid amount"; in both cases the only step taken outside `Fund` is the address
check: no record is built for signing, the key is not read, nothing is submitted. -/
theorem Fund_rejects_bad_amount {Key : Type} (co : Collab Key) (m : rpcManager Key)
    (args : List GoString)
    (hlen : 2 ≤ args.length)
    (haddr : (co.VerifyUserId (args.getD 0 [])).1 = true)
    (hbad : (Atoi (args.getD 1 [])).2 ≠ none ∨ (Atoi (args.getD 1 [])).1 < 0) :
    (∀ err, (Atoi (args.getD 1 [])).2 = some err →
      (Fund co m args).out = .returned [] (some err)) ∧
    ((Atoi (args.getD 1 [])).2 = none →
      (Fund co m args).out = .returned [] (some (.errorsNew (str "Invalid amount")))) ∧
    (Fund co m args).trace = [.VerifyUserId (args.getD 0 [])] ∧
    signedRecords (Fund co m args).trace = [] ∧
    (Fund co m args).trace.countP ClientEvent.usesKeyOrNetwork = 0 := by
  have hl : ¬ args.length < 2 := by omega
  cases hp : (Atoi (args.getD 1 [])).2 with
  | some e =>
    simp only [Fund, hl, haddr, hp]
    simp [signedRecords, ClientEvent.usesKeyOrNetwork]
  | none =>
    have hneg : (Atoi (args.getD 1 [])).1 < 0 := by
      rcases hbad with h | h
      · exact absurd hp h
      · exact h
    simp only [Fund, hl, haddr, hp, hneg]
    simp [signedRecords, ClientEvent.usesKeyOrNetwork]

/-- C6 amended, at the input of the claim: `Fund("validAddr", "-5")` fails with
"Invalid amount" after the address check alone. -/
theorem Fund_rejects_bad_amount_witness :
    (Fund sampleCollab sampleManager [str "validAddr", str "-5"]).out
      = .returned [] (some (.errorsNew (str "Invalid amount"))) ∧
    (Fund sampleCollab sampleManager [str "validAddr", str "-5"]).trace
      = [.VerifyUserId (str "validAddr")] :=
  ⟨(Fund_rejects_bad_amount sampleCollab sampleManager [str "validAddr", str "-5"]
      (by decide) (by decide) (Or.inr (by decide))).2.1 (by decide),
   (Fund_rejects_bad_amount sampleCollab sampleManager [str "validAddr", str "-5"]
      (by decide) (by decide) (Or.inr (by decide))).2.2.1⟩

/-- C7 as stated fails when further arguments follow the message: with four
arguments and a message of 257 bytes `Fund` does not fail; it signs and submits. -/
theorem Fund_four_args_long_message_accepted :
    (message 257).length = 257 ∧
    (Fund sampleCollab sampleManager
      [str "validAddr", str "10", message 257, str "x"]).out
      = .returned (str "tx-1") none := by
  refine ⟨message_length 257, ?_⟩
  have h4 : ¬ ([str "validAddr", str "10", message 257, str "x"].length
      = 3) := by simp
  have hl : ¬ ([str "validAddr", str "10", message 257, str "x"].length
      < 2) := by simp
  have ha : (sampleCollab.VerifyUserId
      ([str "validAddr", str "10", message 257, str "x"].getD 0 [])).1
      = true := by decide
  have hp : (Atoi ([str "validAddr", str "10", message 257,
      str "x"].getD 1 [])).2 = none := by decide
  have hn : ¬ (Atoi ([str "validAddr", str "10", message 257,
      str "x"].getD 1 [])).1 < 0 := by decide
  simp only [Fund, hl, ha, hp, hn, h4]
  simp [Fund.send, sampleManager, sampleCollab]

/-- C7 amended: for every argument list with a valid address and amount, `Fund`
fails with the message-too-long error before anything is signed if and only if
exactly three arguments are given and `args[2]` is longer than 256 bytes. -/
theorem Fund_message_too_long_iff {Key : Type} (co : Collab Key) (m : rpcManager Key)
    (args : List GoString)
    (hlen : 2 ≤ args.length)
    (haddr : (co.VerifyUserId (args.getD 0 [])).1 = true)
    (hparse : (Atoi (args.getD 1 [])).2 = none)
    (hnonneg : 0 ≤ (Atoi (args.getD 1 [])).1) :
    ((Fund co m args).out = .returned [] (some messageTooLong) ∧
      (Fund co m args).trace = [.VerifyUserId (args.getD 0 [])]) ↔
    (args.length = 3 ∧ fundNounceMaxLen < (args.getD 2 []).length) := by
  have hl : ¬ args.length < 2 := by omega
  have hn : ¬ (Atoi (args.getD 1 [])).1 < 0 := by omega
  have hsend : ∀ fund, Fund co m args = Fund.send co m (args.getD 0 []) fund →
      ¬ ((Fund co m args).out = .returned [] (some messageTooLong) ∧
        (Fund co m args).trace = [.VerifyUserId (args.getD 0 [])]) := by
    intro fund hF hc
    rw [hF] at hc
    have h3 := Fund_send_returned_trace co m _ fund _ _ hc.1
    rw [hc.2] at h3
    simp at h3
  by_cases h3 : args.length = 3
  · by_cases hm : (args.getD 2 []).length > fundNounceMaxLen
    · constructor
      · intro _
        exact ⟨h3, hm⟩
      · intro _
        simp only [Fund, hl, haddr, hparse, hn, h3, hm]
        simp
    · constructor
      · intro hc
        refine absurd hc (hsend ⟨⟨args.getD 0 [], uint (Atoi (args.getD 1 [])).1⟩, false,
          some (args.getD 2 [])⟩ ?_)
        simp only [Fund, hl, haddr, hparse, hn, h3, hm]
        simp
      · intro hc
        exact absurd hc.2 hm
  · constructor
    · intro hc
      refine absurd hc (hsend ⟨⟨args.getD 0 [], uint (Atoi (args.getD 1 [])).1⟩, false,
        none⟩ ?_)
      simp only [Fund, hl, haddr, hparse, hn, h3]
      simp
    · intro hc
      exact absurd hc.1 h3

/-- C7 amended, at the boundary: with three arguments a message of 257 bytes is
rejected with the message-too-long error, one of 256 bytes is not. -/
theorem Fund_message_too_long_iff_witness :
    ((Fund sampleCollab sampleManager [str "validAddr", str "10", message 257]).out
        = .returned [] (some messageTooLong) ∧
      (Fund sampleCollab sampleManager [str "validAddr", str "10", message 257]).trace
        = [.VerifyUserId (str "validAddr")]) ∧
    ¬ ((Fund sampleCollab sampleManager [str "validAddr", str "10", message 256]).out
        = .returned [] (some messageTooLong) ∧
      (Fund sampleCollab sampleManager [str "validAddr", str "10", message 256]).trace
        = [.VerifyUserId (str "validAddr")]) :=
  ⟨(Fund_message_too_long_iff sampleCollab sampleManager
      [str "validAddr", str "10", message 257]
      (by simp) (by decide) (by decide) (by decide)).2
      ⟨by simp, by simp [fundNounceMaxLen, message_length]⟩,
   fun h => absurd ((Fund_message_too_long_iff sampleCollab sampleManager
      [str "validAddr", str "10", message 256]
      (by simp) (by decide) (by decide) (by decide)).1 h).2
      (by simp [fundNounceMaxLen, message_length])⟩

/-- C8 as stated fails when the address helper rejects the recipient without an
error value: `Fund("bad-addr", "10")` then returns the empty id with a nil
error, so the call does not fail. -/
theorem Fund_rejected_address_nil_error :
    (silentCollab.VerifyUserId (str "bad-addr")) = (false, none) ∧
    (Fund silentCollab sampleManager [str "bad-addr", str "10"]).out = .returned [] none := by
  decide

/-- C8 amended: for every argument list with `len(args) >= 2` whose recipient
`VerifyUserId` rejects, `Fund` returns the empty id together with exactly the
error value that `VerifyUserId` gave (non-nil whenever that one is), and the
address check is the only step taken: the private key is not read and nothing
is signed or submitted. -/
theorem Fund_rejected_address {Key : Type} (co : Collab Key) (m : rpcManager Key)
    (args : List GoString)
    (hlen : 2 ≤ args.length)
    (hrej : (co.VerifyUserId (args.getD 0 [])).1 = false) :
    (Fund co m args).out = .returned [] (co.VerifyUserId (args.getD 0 [])).2 ∧
    (Fund co m args).trace = [.VerifyUserId (args.getD 0 [])] ∧
    (Fund co m args).trace.countP ClientEvent.usesKeyOrNetwork = 0 ∧
    signedRecords (Fund co m args).trace = [] := by
  have hl : ¬ args.length < 2 := by omega
  simp only [Fund, hl, hrej]
  simp [signedRecords, ClientEvent.usesKeyOrNetwork]

/-- C8 amended, at the input of the claim: `Fund("bad-addr", "10")` with an
address helper that reports an error. -/
theorem Fund_rejected_address_witness :
    (Fund sampleCollab sampleManager [str "bad-addr", str "10"]).out
      = .returned [] (some (.external (str "invalid user id"))) ∧
    (Fund sampleCollab sampleManager [str "bad-addr", str "10"]).trace
      = [.VerifyUserId (str "bad-addr")] :=
  ⟨(Fund_rejected_address sampleCollab sampleManager [str "bad-addr", str "10"]
      (by decide) (by decide)).1,
   (Fund_rejected_address sampleCollab sampleManager [str "bad-addr", str "10"]
      (by decide) (by decide)).2.1⟩

/-- C9 on the code: for every otherwise valid argument list, when `PrivKey` is
nil the expression `m.PrivKey.K` dereferences a nil pointer: `Fund` does not
return an error, and nothing was signed or submitted before that point. -/
theorem Fund_nil_key_dereference {Key : Type} (co : Collab Key) (m : rpcManager Key)
    (args : List GoString)
    (hlen : 2 ≤ args.length)
    (haddr : (co.VerifyUserId (args.getD 0 [])).1 = true)
    (hparse : (Atoi (args.getD 1 [])).2 = none)
    (hnonneg : 0 ≤ (Atoi (args.getD 1 [])).1)
    (hmsg : args.length = 3 → (args.getD 2 []).length ≤ fundNounceMaxLen)
    (hkey : m.PrivKey = none) :
    (Fund co m args).out = .nilDereference ∧
    (∀ txid err, (Fund co m args).out ≠ .returned txid err) ∧
    (Fund co m args).trace = [.VerifyUserId (args.getD 0 [])] := by
  have hl : ¬ args.length < 2 := by omega
  have hn : ¬ (Atoi (args.getD 1 [])).1 < 0 := by omega
  by_cases h3 : args.length = 3
  · have hm : ¬ (args.getD 2 []).length > fundNounceMaxLen := by
      have := hmsg h3
      omega
    simp only [Fund, hl, haddr, hparse, hn, h3, hm]
    simp [Fund.send, hkey]
  · simp only [Fund, hl, haddr, hparse, hn, h3]
    simp [Fund.send, hkey]

/-- C9 on the code, at `Fund("validAddr", "10")` with a nil `PrivKey`. -/
theorem Fund_nil_key_dereference_witness :
    (Fund sampleCollab keylessManager [str "validAddr", str "10"]).out = .nilDereference :=
  (Fund_nil_key_dereference sampleCollab keylessManager [str "validAddr", str "10"]
    (by decide) (by decide) (by decide) (by decide) (by decide) rfl).1


end Paicode
